import Mathlib

/-!
A verification development for the mercury concurrency engine.

The definitions below are shallow embeddings of the C++ sources:
  * `scheduler::measurement` and `scheduler::measure` (inc/mce/scheduler.hpp),
  * the buffered channel context (inc/mce/buffered_channel.hpp),
  * the unbuffered channel context (inc/mce/unbuffered_channel.hpp),
  * `scheduler::run` / `scheduler::schedule` lifecycle logic (inc/mce/scheduler.hpp),
  * `threadpool::worker()` selection and the `concurrent` dispatch algorithm
    (inc/mce/threadpool.hpp, src/threadpool.cpp),
  * the `await` bridge dispatch condition (inc/mce/await.hpp).

Machine words (`size_t`) are modelled as `Nat` with explicit reduction
modulo `2 ^ 64` wherever C++ overflow/truncation semantics matter.
-/

namespace Mce

/-!
### scheduler::measurement (scheduler.hpp, lines 733-805)

The C++ code packs an enqueued count and a scheduled count into one
`size_t`: each count is clamped ("saturated") to the maximum value
representable in half a machine word, the enqueued count is shifted into
the upper half and the scheduled count occupies the lower half.
-/

/-- Source `sizeof(size_t) * 8` on the modelled 64-bit target. -/
def size_width : Nat := 64

/-- Source `size_width / 2`, the bit width of each packed counter. -/
def half_width : Nat := size_width / 2

/-- Source `SIZE_MAX`, the largest value of `size_t`. -/
def size_max : Nat := 2 ^ size_width - 1

/-- Source `SIZE_MAX >> half_width` from the source. -/
def right_mask : Nat := size_max >>> half_width

/-- Source `SIZE_MAX << half_width` from the source; the C++ shift truncates to the
word width, modelled by the explicit reduction modulo `2 ^ size_width`. -/
def left_mask : Nat := (size_max <<< half_width) % 2 ^ size_width

/-- The saturation `(x > right_mask ? right_mask : x)` used by the
`measurement` constructor. -/
def clamp (x : Nat) : Nat := if x > right_mask then right_mask else x

/-- The `measurement(size_t enqueued, size_t scheduled)` constructor:
`(enqueued > right_mask ? right_mask : enqueued) << half_width |
 (scheduled > right_mask ? right_mask : scheduled)`, truncated to the word. -/
def measurement_mk (enqueued scheduled : Nat) : Nat :=
  ((clamp enqueued <<< half_width) ||| clamp scheduled) % 2 ^ size_width

/-- Source `measurement::scheduled()`: `weight_ & right_mask`. -/
def m_scheduled (w : Nat) : Nat := w &&& right_mask

/-- Source `measurement::enqueued()`: `(weight_ & left_mask) >> half_width`. -/
def m_enqueued (w : Nat) : Nat := (w &&& left_mask) >>> half_width

/-- Source `measurement::blocked()`: `scheduled() - enqueued()` with `size_t`
(wrap-around) subtraction. -/
def m_blocked (w : Nat) : Nat :=
  (m_scheduled w + (2 ^ size_width - m_enqueued w)) % 2 ^ size_width

theorem right_mask_eq : right_mask = 2 ^ half_width - 1 := by rfl

theorem left_mask_eq : left_mask = (2 ^ half_width - 1) * 2 ^ half_width := by rfl

theorem clamp_le (x : Nat) : clamp x ≤ right_mask := by
  unfold clamp
  split
  · exact Nat.le_refl _
  · omega

theorem right_mask_lt : right_mask < 2 ^ half_width := by
  rw [right_mask_eq]
  exact Nat.sub_lt (Nat.two_pow_pos _) (by norm_num)

theorem clamp_lt (x : Nat) : clamp x < 2 ^ half_width :=
  Nat.lt_of_le_of_lt (clamp_le x) right_mask_lt

theorem clamp_of_lt {x : Nat} (h : x < 2 ^ half_width) : clamp x = x := by
  have hx : ¬ x > right_mask := by
    rw [right_mask_eq]
    have := Nat.two_pow_pos half_width
    omega
  simp [clamp, hx]

theorem clamp_of_ge {x : Nat} (h : 2 ^ half_width ≤ x) : clamp x = right_mask := by
  have hx : x > right_mask := by
    rw [right_mask_eq]
    have := Nat.two_pow_pos half_width
    omega
  simp [clamp, hx]

theorem half_width_sq : 2 ^ half_width * 2 ^ half_width = 2 ^ size_width := by rfl

/-- Arithmetic form of the packed word. -/
theorem measurement_mk_eq (e s : Nat) :
    measurement_mk e s = clamp e * 2 ^ half_width + clamp s := by
  have hcs : clamp s < 2 ^ half_width := clamp_lt s
  have hce : clamp e < 2 ^ half_width := clamp_lt e
  unfold measurement_mk
  rw [Nat.shiftLeft_eq, Nat.mul_comm (clamp e), ← Nat.mul_add_lt_is_or hcs,
    Nat.mul_comm]
  apply Nat.mod_eq_of_lt
  have h1 : clamp e * 2 ^ half_width + clamp s
      < 2 ^ half_width * 2 ^ half_width := by
    calc clamp e * 2 ^ half_width + clamp s
        < clamp e * 2 ^ half_width + 2 ^ half_width := by omega
      _ = (clamp e + 1) * 2 ^ half_width := by ring
      _ ≤ 2 ^ half_width * 2 ^ half_width :=
          Nat.mul_le_mul_right _ (by omega)
  rw [half_width_sq] at h1
  exact h1

theorem m_scheduled_mk (e s : Nat) :
    m_scheduled (measurement_mk e s) = clamp s := by
  rw [measurement_mk_eq]
  unfold m_scheduled
  rw [right_mask_eq, Nat.and_pow_two_sub_one_eq_mod, Nat.mul_comm (clamp e),
    Nat.mul_add_mod]
  exact Nat.mod_eq_of_lt (clamp_lt s)

theorem and_left_mask_eq (a b : Nat) (ha : a < 2 ^ half_width)
    (hb : b < 2 ^ half_width) :
    (a * 2 ^ half_width + b) &&& left_mask = a * 2 ^ half_width := by
  rw [left_mask_eq]
  apply Nat.eq_of_testBit_eq
  intro j
  rw [Nat.testBit_and,
    show a * 2 ^ half_width + b = 2 ^ half_width * a + b by ring,
    Nat.testBit_mul_pow_two_add a hb,
    show (2 ^ half_width - 1) * 2 ^ half_width
      = 2 ^ half_width * (2 ^ half_width - 1) + 0 by ring,
    Nat.testBit_mul_pow_two_add (2 ^ half_width - 1) (Nat.two_pow_pos half_width),
    show a * 2 ^ half_width = 2 ^ half_width * a + 0 by ring,
    Nat.testBit_mul_pow_two_add a (Nat.two_pow_pos half_width)]
  by_cases hj : j < half_width
  · simp [hj]
  · simp only [if_neg hj, Nat.zero_testBit, Nat.testBit_two_pow_sub_one]
    by_cases hj2 : j - half_width < half_width
    · simp [hj2]
    · have hle : half_width ≤ j - half_width := Nat.le_of_not_lt hj2
      have : a < 2 ^ (j - half_width) :=
        Nat.lt_of_lt_of_le ha (Nat.pow_le_pow_right (by norm_num) hle)
      simp [hj2, Nat.testBit_lt_two_pow this]

theorem m_enqueued_mk (e s : Nat) :
    m_enqueued (measurement_mk e s) = clamp e := by
  rw [measurement_mk_eq]
  unfold m_enqueued
  rw [and_left_mask_eq _ _ (clamp_lt e) (clamp_lt s), Nat.shiftRight_eq_div_pow]
  exact Nat.mul_div_cancel _ (Nat.two_pow_pos _)

/-- Packed words compare lexicographically on the (clamped) halves. -/
theorem pack_lt_iff (a b c d n : Nat) (hb : b < n) (hd : d < n) :
    a * n + b < c * n + d ↔ a < c ∨ (a = c ∧ b < d) := by
  constructor
  · intro h
    rcases Nat.lt_trichotomy a c with h1 | h1 | h1
    · exact Or.inl h1
    · subst h1
      exact Or.inr ⟨rfl, by omega⟩
    · exfalso
      have h2 : (c + 1) * n ≤ a * n := Nat.mul_le_mul_right n (by omega)
      have h3 : (c + 1) * n = c * n + n := by ring
      omega
  · intro h
    rcases h with h | ⟨h1, h2⟩
    · have h2 : (a + 1) * n ≤ c * n := Nat.mul_le_mul_right n (by omega)
      have h3 : (a + 1) * n = a * n + n := by ring
      omega
    · subst h1
      omega

/-- Claim C2: for enqueued/scheduled counts below `2 ^ half_width`, comparing
the single packed word of two measurements is exactly the lexicographic
comparison (enqueued first, scheduled as tiebreaker) of the count pairs;
counts at or above `2 ^ half_width` saturate to the half-word maximum; and a
measurement built from an in-range pair `(e, s)` reports `enqueued() = e`,
`scheduled() = s` and (whenever `e ≤ s`, so that the difference is a count)
`blocked() = s - e`. -/
theorem measurement_spec :
    (∀ e1 s1 e2 s2 : Nat, e1 < 2 ^ half_width → s1 < 2 ^ half_width →
      e2 < 2 ^ half_width → s2 < 2 ^ half_width →
      (measurement_mk e1 s1 < measurement_mk e2 s2 ↔
        (e1 < e2 ∨ (e1 = e2 ∧ s1 < s2)))) ∧
    (∀ e s : Nat, 2 ^ half_width ≤ e →
      m_enqueued (measurement_mk e s) = 2 ^ half_width - 1) ∧
    (∀ e s : Nat, 2 ^ half_width ≤ s →
      m_scheduled (measurement_mk e s) = 2 ^ half_width - 1) ∧
    (∀ e s : Nat, e < 2 ^ half_width → s < 2 ^ half_width →
      m_enqueued (measurement_mk e s) = e ∧
      m_scheduled (measurement_mk e s) = s ∧
      (e ≤ s → m_blocked (measurement_mk e s) = s - e)) := by
  refine ⟨?_, ?_, ?_, ?_⟩
  · intro e1 s1 e2 s2 he1 hs1 he2 hs2
    rw [measurement_mk_eq, measurement_mk_eq, clamp_of_lt he1, clamp_of_lt hs1,
      clamp_of_lt he2, clamp_of_lt hs2]
    exact pack_lt_iff e1 s1 e2 s2 _ hs1 hs2
  · intro e s he
    rw [m_enqueued_mk, clamp_of_ge he, right_mask_eq]
  · intro e s hs
    rw [m_scheduled_mk, clamp_of_ge hs, right_mask_eq]
  · intro e s he hs
    refine ⟨by rw [m_enqueued_mk, clamp_of_lt he],
      by rw [m_scheduled_mk, clamp_of_lt hs], ?_⟩
    intro hle
    unfold m_blocked
    rw [m_enqueued_mk, m_scheduled_mk, clamp_of_lt he, clamp_of_lt hs]
    have hw : 2 ^ size_width = 18446744073709551616 := by rfl
    have hw2 : (2 : Nat) ^ half_width = 4294967296 := by rfl
    rw [hw]
    rw [hw2] at he hs
    omega

/-- Witness for `measurement_spec` at concrete inputs. -/
theorem measurement_spec_witness :
    (measurement_mk 1 2 < measurement_mk 2 0 ↔ (1 < 2 ∨ (1 = 2 ∧ 2 < 0))) ∧
    m_enqueued (measurement_mk 5000000000 0) = 2 ^ half_width - 1 ∧
    m_blocked (measurement_mk 1 3) = 3 - 1 :=
  ⟨measurement_spec.1 1 2 2 0 (by decide) (by decide) (by decide) (by decide),
   measurement_spec.2.1 5000000000 0 (by decide),
   (measurement_spec.2.2.2 1 3 (by decide) (by decide)).2.2 (by decide)⟩

/-!
### Channel operation outcomes (base_channel.hpp `enum result`)

`COut` extends the source's `result` enum with `parked`, marking the point
where a blocking operation has registered itself on a parked queue and
suspended; the operation's eventual `result` is produced by the matching
`...Finish` function once the parked coroutine is resumed, with `failed`
recording whether its notify callback received a null pointer (close) or a
real transfer (peer operation).
-/

inductive COut where
  | closed
  | success
  | failure
  | parked
deriving DecidableEq

/-- The conversion `op(...) == result::success` used by the public blocking
`send`/`recv` wrappers to produce their `bool` return value. -/
def coutBool : COut → Bool
  | COut.success => true
  | _ => false

/-!
### Buffered channel (buffered_channel.hpp, `buffered_channel_context`)

State under the channel spinlock: the closed flag, the ring buffer (a
`boost::circular_buffer` of capacity `cap`, modelled as a list of at most
`cap` elements with front at the head), and the two parked queues.  A
parked sender's notify callback enqueues the sender's value into the
buffer when handed a non-null pointer, so the `parkedSend` queue carries
those values; a parked receiver's callback pops the buffer front, so
`parkedRecv` is just a count.  Each operation below models one critical
section (lock acquisition to lock release) exactly as in the source;
`yields` counts the `mce::yield()` calls the operation performs after
releasing the lock.
-/

structure BState (T : Type) where
  closedFlag : Bool
  cap : Nat
  buf : List T
  parkedSend : List T
  parkedRecv : Nat
deriving DecidableEq

structure BOut (T : Type) where
  st : BState T
  res : COut
  yields : Nat
deriving DecidableEq

/-- Source `buffered_channel::construct(sz)`: a capacity below 1 is coerced to 1,
and a fresh open context is allocated. -/
def binit (T : Type) (sz : Nat) : BState T :=
  { closedFlag := false
    cap := if sz < 1 then 1 else sz
    buf := []
    parkedSend := []
    parkedRecv := 0 }

/-- The sender-side wake-up in `send_`/`bsendFinish`: under `!closed_flag`,
if a receiver is parked and the buffer is non-empty, run the front parked
receiver's callback (which pops the buffer front into the receiver) and
remove it from the queue. -/
def bwakeRecv {T : Type} (s : BState T) : BState T :=
  if !s.closedFlag && (s.parkedRecv != 0 && !s.buf.isEmpty) then
    { s with buf := s.buf.tail, parkedRecv := s.parkedRecv - 1 }
  else s

/-- The receiver-side wake-up in `recv`/`brecvFinish`: under `!closed_flag`,
if a sender is parked and the buffer is not full, run the front parked
sender's callback (which pushes the sender's value into the buffer) and
remove it from the queue. -/
def bwakeSend {T : Type} (s : BState T) : BState T :=
  if !s.closedFlag && !(s.buf.length == s.cap) then
    match s.parkedSend with
    | [] => s
    | v :: rest => { s with buf := s.buf ++ [v], parkedSend := rest }
  else s

/-- Source `buffered_channel_context::send_(s, block, is_rvalue)` up to the point
where the lock is released (the rvalue flag only selects copy vs. move of
the same value and is dropped).  A full buffer parks a blocking sender
(`COut.parked`); the parked operation is completed by `bsendFinish`. -/
def bsend {T : Type} (s : BState T) (v : T) (block : Bool) : BOut T :=
  if s.closedFlag then ⟨s, COut.closed, 0⟩
  else if s.buf.length == s.cap then
    if block then ⟨{ s with parkedSend := s.parkedSend ++ [v] }, COut.parked, 0⟩
    else ⟨s, COut.failure, 1⟩
  else ⟨bwakeRecv { s with buf := s.buf ++ [v] }, COut.success, 1⟩

/-- Continuation of a parked blocking `send_` after its `parkable` is
unparked: with `failed` set (notified with a null pointer by `close`) it
returns `result::closed` without yielding; otherwise it re-acquires the
lock, performs the receiver wake-up check, yields once and returns
`result::success`. -/
def bsendFinish {T : Type} (s : BState T) (failed : Bool) : BOut T :=
  if failed then ⟨s, COut.closed, 0⟩
  else ⟨bwakeRecv s, COut.success, 1⟩

/-- Source `buffered_channel_context::recv(r, block)` up to lock release. -/
def brecv {T : Type} (s : BState T) (block : Bool) : BOut T :=
  if s.closedFlag then ⟨s, COut.closed, 0⟩
  else if s.buf.isEmpty then
    if block then ⟨{ s with parkedRecv := s.parkedRecv + 1 }, COut.parked, 0⟩
    else ⟨s, COut.failure, 1⟩
  else ⟨bwakeSend { s with buf := s.buf.tail }, COut.success, 1⟩

/-- Continuation of a parked blocking `recv` after unpark, symmetric to
`bsendFinish`. -/
def brecvFinish {T : Type} (s : BState T) (failed : Bool) : BOut T :=
  if failed then ⟨s, COut.closed, 0⟩
  else ⟨bwakeSend s, COut.success, 1⟩

/-- Source `buffered_channel_context::close()`: sets the closed flag and notifies
every parked sender and receiver with a null pointer, emptying both
queues.  Besides the new state it returns, per queue, the list of `failed`
flags the notifications store into the corresponding parked operations
(a null pointer sets `failed = true`). -/
def bclose {T : Type} (s : BState T) : BState T × List Bool × List Bool :=
  ({ s with closedFlag := true, parkedSend := [], parkedRecv := 0 },
   s.parkedSend.map (fun _ => true),
   List.replicate s.parkedRecv true)

/-- Source `size()`: reads `buf.size()` under the lock, state unchanged. -/
def bsize {T : Type} (s : BState T) : Nat × BState T := (s.buf.length, s)

/-- Source `empty()`: reads `buf.empty()` under the lock. -/
def bemptyQ {T : Type} (s : BState T) : Bool × BState T := (s.buf.isEmpty, s)

/-- Source `full()`: reads `buf.full()` under the lock. -/
def bfullQ {T : Type} (s : BState T) : Bool × BState T :=
  (s.buf.length == s.cap, s)

/-- Source `capacity()`: reads `buf.capacity()` under the lock. -/
def bcapacity {T : Type} (s : BState T) : Nat × BState T := (s.cap, s)

/-- Source `reserve()`: reads `buf.reserve()` (remaining slots) under the lock. -/
def breserve {T : Type} (s : BState T) : Nat × BState T :=
  (s.cap - s.buf.length, s)

/-- Source `closed()`: reads the closed flag under the lock. -/
def bclosedQ {T : Type} (s : BState T) : Bool × BState T := (s.closedFlag, s)

/-- The buffered-channel invariant of the specification: a non-full buffer
implies no parked senders, and a non-empty buffer implies no parked
receivers. -/
def Binv {T : Type} (s : BState T) : Bool :=
  (s.buf.length == s.cap || s.parkedSend.isEmpty) &&
  (s.buf.isEmpty || s.parkedRecv == 0)

theorem Binv_iff {T : Type} (s : BState T) :
    Binv s = true ↔
      ((s.buf.length = s.cap ∨ s.parkedSend = []) ∧
       (s.buf = [] ∨ s.parkedRecv = 0)) := by
  simp [Binv, List.isEmpty_iff, Bool.or_eq_true, Bool.and_eq_true]

/-!
### Unbuffered channel (unbuffered_channel.hpp, `unbuffered_channel_context`)

State under the channel spinlock: the closed flag and the two parked
queues.  A parked sender's notify callback copies/moves the sender's value
through the transfer descriptor into the receiver's target, so the
`parkedSend` queue carries those values; a parked receiver's callback only
fills the receiver's own stack slot from the descriptor it is handed, so
`parkedRecv` is a count.  `received` records the value written into the
calling receiver's `r` (absent on the closed path, where no transfer
happens).
-/

structure UState (T : Type) where
  closedFlag : Bool
  parkedSend : List T
  parkedRecv : Nat
deriving DecidableEq

structure UOut (T : Type) where
  st : UState T
  res : COut
  received : Option T
  yields : Nat
deriving DecidableEq

/-- Source `unbuffered_channel::construct()`. -/
def uinit (T : Type) : UState T :=
  { closedFlag := false, parkedSend := [], parkedRecv := 0 }

/-- Source `unbuffered_channel_context::send_(s, block, is_rvalue)` up to lock
release.  With no parked receiver a blocking sender parks; otherwise the
sender hands its transfer descriptor to the front parked receiver and pops
it from the queue. -/
def usend {T : Type} (s : UState T) (v : T) (block : Bool) : UOut T :=
  if s.closedFlag then ⟨s, COut.closed, none, 0⟩
  else if s.parkedRecv == 0 then
    if block then
      ⟨{ s with parkedSend := s.parkedSend ++ [v] }, COut.parked, none, 0⟩
    else ⟨s, COut.failure, none, 1⟩
  else ⟨{ s with parkedRecv := s.parkedRecv - 1 }, COut.success, none, 1⟩

/-- Continuation of a parked blocking `send_` after unpark: `failed` (null
notification from `close`) returns `result::closed` without yielding, else
the value was already copied out by the receiver and the sender yields once
and returns `result::success`. -/
def usendFinish {T : Type} (s : UState T) (failed : Bool) : UOut T :=
  if failed then ⟨s, COut.closed, none, 0⟩
  else ⟨s, COut.success, none, 1⟩

/-- Source `unbuffered_channel_context::recv(r, block)` up to lock release.  With
no parked sender a blocking receiver parks; otherwise it invokes the front
parked sender's callback with its own address, receiving that sender's
value directly. -/
def urecv {T : Type} (s : UState T) (block : Bool) : UOut T :=
  if s.closedFlag then ⟨s, COut.closed, none, 0⟩
  else
    match s.parkedSend with
    | [] =>
      if block then
        ⟨{ s with parkedRecv := s.parkedRecv + 1 }, COut.parked, none, 0⟩
      else ⟨s, COut.failure, none, 1⟩
    | v :: rest => ⟨{ s with parkedSend := rest }, COut.success, some v, 1⟩

/-- Continuation of a parked blocking `recv` after unpark; `delivered` is
the value the notifying sender's descriptor wrote into `r` (none when the
notification was a null pointer from `close`). -/
def urecvFinish {T : Type} (s : UState T) (failed : Bool)
    (delivered : Option T) : UOut T :=
  if failed then ⟨s, COut.closed, none, 0⟩
  else ⟨s, COut.success, delivered, 1⟩

/-- Source `unbuffered_channel_context::close()`: sets the closed flag and
notifies every parked sender and receiver with a null pointer, emptying
both queues; returns the `failed` flags stored into the parked
operations. -/
def uclose {T : Type} (s : UState T) : UState T × List Bool × List Bool :=
  ({ closedFlag := true, parkedSend := [], parkedRecv := 0 },
   s.parkedSend.map (fun _ => true),
   List.replicate s.parkedRecv true)

/-- Source `closed()`: reads the closed flag under the lock. -/
def uclosedQ {T : Type} (s : UState T) : Bool × UState T := (s.closedFlag, s)

/-- The unbuffered-channel invariant of the specification: the parked
sender queue and the parked receiver queue are never both non-empty. -/
def Uinv {T : Type} (s : UState T) : Bool :=
  s.parkedSend.isEmpty || s.parkedRecv == 0

theorem Uinv_iff {T : Type} (s : UState T) :
    Uinv s = true ↔ (s.parkedSend = [] ∨ s.parkedRecv = 0) := by
  simp [Uinv, List.isEmpty_iff, Bool.or_eq_true]

/-- From an invariant state the receiver wake-up in a resumed sender's
continuation never fires: a parked receiver forces an empty buffer. -/
theorem bwakeRecv_of_inv {T : Type} (s : BState T) (h : Binv s = true) :
    bwakeRecv s = s := by
  rw [Binv_iff] at h
  unfold bwakeRecv
  split
  · rename_i hcond
    simp only [Bool.and_eq_true, Bool.not_eq_true', bne_iff_ne,
      Bool.not_eq_true, List.isEmpty_eq_false] at hcond
    rcases h.2 with h2 | h2
    · exact absurd h2 hcond.2.2
    · exact absurd h2 hcond.2.1
  · rfl

/-- From an invariant state the sender wake-up in a resumed receiver's
continuation never fires: a parked sender forces a full buffer. -/
theorem bwakeSend_of_inv {T : Type} (s : BState T) (h : Binv s = true) :
    bwakeSend s = s := by
  rw [Binv_iff] at h
  unfold bwakeSend
  split
  · rename_i hcond
    simp only [Bool.and_eq_true, Bool.not_eq_true', Bool.not_eq_true,
      beq_eq_false_iff_ne, ne_eq] at hcond
    rcases h.1 with h1 | h1
    · exact absurd h1 hcond.2
    · rw [h1]
  · rfl

theorem Binv_bsend {T : Type} (s : BState T) (v : T) (block : Bool)
    (h : Binv s = true) : Binv (bsend s v block).st = true := by
  have hinv := (Binv_iff s).1 h
  obtain ⟨h1, h2⟩ := hinv
  by_cases hc : s.closedFlag = true
  · simp [bsend, hc, h]
  · by_cases hf : (s.buf.length == s.cap) = true
    · cases block
      · simp [bsend, hc, hf, h]
      · simp only [bsend, hc, Bool.false_eq_true, if_false, hf, if_true,
          if_pos rfl]
        rw [Binv_iff]
        exact ⟨Or.inl (by simpa using hf), h2⟩
    · have hne : s.buf.length ≠ s.cap := by simpa using hf
      have hps : s.parkedSend = [] := by
        rcases h1 with h1 | h1
        · exact absurd h1 hne
        · exact h1
      simp only [bsend, hc, Bool.false_eq_true, if_false, hf]
      cases hb : s.buf with
      | nil =>
        by_cases hr : s.parkedRecv = 0
        · rw [Binv_iff]
          simp [bwakeRecv, hb, hr, hps]
        · rw [Binv_iff]
          simp [bwakeRecv, hb, hr, hps]
      | cons x xs =>
        have hr : s.parkedRecv = 0 := by
          rcases h2 with h2 | h2
          · rw [hb] at h2; exact absurd h2 (by simp)
          · exact h2
        rw [Binv_iff]
        simp [bwakeRecv, hb, hr, hps]

theorem Binv_brecv {T : Type} (s : BState T) (block : Bool)
    (h : Binv s = true) : Binv (brecv s block).st = true := by
  have hinv := (Binv_iff s).1 h
  obtain ⟨h1, h2⟩ := hinv
  by_cases hc : s.closedFlag = true
  · simp [brecv, hc, h]
  · by_cases he : s.buf.isEmpty = true
    · cases block
      · simp [brecv, hc, he, h]
      · simp only [brecv, hc, Bool.false_eq_true, if_false, he, if_true,
          if_pos rfl]
        rw [Binv_iff]
        refine ⟨?_, Or.inl (by simpa [List.isEmpty_iff] using he)⟩
        simpa using h1
    · have hbne : s.buf ≠ [] := by simpa [List.isEmpty_iff] using he
      have hr : s.parkedRecv = 0 := by
        rcases h2 with h2 | h2
        · exact absurd h2 hbne
        · exact h2
      simp only [brecv, hc, Bool.false_eq_true, if_false, he]
      rcases h1 with h1 | h1
      · -- buffer full: the parked-sender wake-up refills the buffer
        obtain ⟨x, xs, hb⟩ : ∃ x xs, s.buf = x :: xs := by
          cases hbb : s.buf with
          | nil => exact absurd hbb hbne
          | cons x xs => exact ⟨x, xs, rfl⟩
        have hcap : s.cap = xs.length + 1 := by
          rw [hb] at h1; simpa using h1.symm
        cases hps : s.parkedSend with
        | nil =>
          rw [Binv_iff]
          simp [bwakeSend, hb, hps, hcap, hr]
        | cons w rest =>
          rw [Binv_iff]
          simp [bwakeSend, hb, hps, hcap, hr]
      · -- buffer not necessarily full but no parked senders: wake-up is a no-op
        rw [Binv_iff]
        simp [bwakeSend, h1, hr]

theorem Binv_bsendFinish {T : Type} (s : BState T) (failed : Bool)
    (h : Binv s = true) : Binv (bsendFinish s failed).st = true := by
  unfold bsendFinish
  split
  · exact h
  · rw [bwakeRecv_of_inv s h]
    exact h

theorem Binv_brecvFinish {T : Type} (s : BState T) (failed : Bool)
    (h : Binv s = true) : Binv (brecvFinish s failed).st = true := by
  unfold brecvFinish
  split
  · exact h
  · rw [bwakeSend_of_inv s h]
    exact h

/-- Claim C3: for every buffered channel, at the boundary of every public
operation (construct, send, recv, try_send, try_recv, close, size, empty,
full, capacity, reserve) the state left behind satisfies: a non-full ring
buffer implies an empty parked-sender queue, and a non-empty ring buffer
implies an empty parked-receiver queue.  `bsend`/`brecv` cover both the
blocking and the non-blocking (`try_*`) entry sections, and
`bsendFinish`/`brecvFinish` cover the return sections of blocking calls
that parked. -/
theorem buffered_channel_invariant {T : Type} (s : BState T) (v : T)
    (block failed : Bool) (sz : Nat) (h : Binv s = true) :
    Binv (binit T sz) = true ∧
    Binv (bsend s v block).st = true ∧
    Binv (brecv s block).st = true ∧
    Binv (bsendFinish s failed).st = true ∧
    Binv (brecvFinish s failed).st = true ∧
    Binv (bclose s).1 = true ∧
    Binv (bsize s).2 = true ∧
    Binv (bemptyQ s).2 = true ∧
    Binv (bfullQ s).2 = true ∧
    Binv (bcapacity s).2 = true ∧
    Binv (breserve s).2 = true ∧
    Binv (bclosedQ s).2 = true := by
  refine ⟨by simp [binit, Binv], Binv_bsend s v block h, Binv_brecv s block h,
    Binv_bsendFinish s failed h, Binv_brecvFinish s failed h, ?_,
    h, h, h, h, h, h⟩
  rw [Binv_iff]
  simp [bclose]

/-- A full capacity-one buffered channel with one parked sender. -/
def bstFullSender : BState Nat := ⟨false, 1, [7], [9], 0⟩

/-- Witness for `buffered_channel_invariant` at a concrete state: a full
buffer of capacity one with one parked sender and a parked receiver count
of zero. -/
theorem buffered_channel_invariant_witness :
    Binv bstFullSender = true ∧
    Binv (brecv bstFullSender true).st = true :=
  ⟨by decide,
   (buffered_channel_invariant bstFullSender 0 true false 1 (by decide)).2.2.1⟩

theorem Uinv_usend {T : Type} (s : UState T) (v : T) (block : Bool)
    (h : Uinv s = true) : Uinv (usend s v block).st = true := by
  have hinv := (Uinv_iff s).1 h
  by_cases hc : s.closedFlag = true
  · simp [usend, hc, h]
  · by_cases hr : (s.parkedRecv == 0) = true
    · cases block
      · simp [usend, hc, hr, h]
      · simp only [usend, hc, Bool.false_eq_true, if_false, hr, if_true,
          if_pos rfl]
        rw [Uinv_iff]
        exact Or.inr (by simpa using hr)
    · have hps : s.parkedSend = [] := by
        rcases hinv with h1 | h1
        · exact h1
        · exact absurd h1 (by simpa using hr)
      simp only [usend, hc, Bool.false_eq_true, if_false, hr]
      rw [Uinv_iff]
      exact Or.inl hps

theorem Uinv_urecv {T : Type} (s : UState T) (block : Bool)
    (h : Uinv s = true) : Uinv (urecv s block).st = true := by
  have hinv := (Uinv_iff s).1 h
  by_cases hc : s.closedFlag = true
  · simp [urecv, hc, h]
  · cases hps : s.parkedSend with
    | nil =>
      cases block
      · simp [urecv, hc, hps, h, Uinv]
      · simp only [urecv, hc, Bool.false_eq_true, if_false, hps, if_pos rfl]
        rw [Uinv_iff]
        exact Or.inl rfl
    | cons w rest =>
      have hr : s.parkedRecv = 0 := by
        rcases hinv with h1 | h1
        · rw [hps] at h1; exact absurd h1 (by simp)
        · exact h1
      simp only [urecv, hc, Bool.false_eq_true, if_false, hps]
      rw [Uinv_iff]
      exact Or.inr hr

/-- Claim C6: for every unbuffered channel, at the boundary of every public
operation (construct, send, recv, try_send, try_recv, close, closed) the
parked-sender queue and the parked-receiver queue are not both non-empty.
`usend`/`urecv` cover the blocking and non-blocking entry sections and
`usendFinish`/`urecvFinish` the return sections of blocking calls that
parked. -/
theorem unbuffered_channel_invariant {T : Type} (s : UState T) (v : T)
    (block failed : Bool) (d : Option T) (h : Uinv s = true) :
    Uinv (uinit T) = true ∧
    Uinv (usend s v block).st = true ∧
    Uinv (urecv s block).st = true ∧
    Uinv (usendFinish s failed).st = true ∧
    Uinv (urecvFinish s failed d).st = true ∧
    Uinv (uclose s).1 = true ∧
    Uinv (uclosedQ s).2 = true := by
  refine ⟨by simp [uinit, Uinv], Uinv_usend s v block h, Uinv_urecv s block h,
    ?_, ?_, by simp [uclose, Uinv], h⟩
  · unfold usendFinish
    split <;> exact h
  · unfold urecvFinish
    split <;> exact h

/-- An open unbuffered channel with two parked senders. -/
def ustTwoSenders : UState Nat := ⟨false, [4, 5], 0⟩

/-- Witness for `unbuffered_channel_invariant` at a concrete state with two
parked senders. -/
theorem unbuffered_channel_invariant_witness :
    Uinv ustTwoSenders = true ∧
    Uinv (urecv ustTwoSenders true).st = true :=
  ⟨by decide,
   (unbuffered_channel_invariant ustTwoSenders 0 true false none
      (by decide)).2.2.1⟩

/-- Claim C4: closing a channel (buffered or unbuffered) with K parked
blocking senders and L parked blocking receivers notifies all K + L parked
operations with a null pointer (storing `failed = true` into each), empties
both parked queues, and each notified operation subsequently returns
`result::closed`, which the public blocking `send`/`recv` wrappers convert
to `false`; no value is transferred (the buffered ring buffer is untouched
and an unbuffered receiver's target stays unwritten). -/
theorem close_unblocks_all {T : Type} (b : BState T) (u : UState T) :
    ((bclose b).2.1.length = b.parkedSend.length ∧
     (bclose b).2.2.length = b.parkedRecv ∧
     (bclose b).1.parkedSend = [] ∧ (bclose b).1.parkedRecv = 0 ∧
     (bclose b).1.buf = b.buf ∧
     (∀ f ∈ (bclose b).2.1, f = true ∧
        coutBool (bsendFinish (bclose b).1 f).res = false ∧
        (bsendFinish (bclose b).1 f).st = (bclose b).1) ∧
     (∀ f ∈ (bclose b).2.2, f = true ∧
        coutBool (brecvFinish (bclose b).1 f).res = false ∧
        (brecvFinish (bclose b).1 f).st = (bclose b).1)) ∧
    ((uclose u).2.1.length = u.parkedSend.length ∧
     (uclose u).2.2.length = u.parkedRecv ∧
     (uclose u).1.parkedSend = [] ∧ (uclose u).1.parkedRecv = 0 ∧
     (∀ f ∈ (uclose u).2.1, f = true ∧
        coutBool (usendFinish (uclose u).1 f).res = false) ∧
     (∀ f ∈ (uclose u).2.2, f = true ∧
        coutBool (urecvFinish (uclose u).1 f none).res = false ∧
        (urecvFinish (uclose u).1 f none).received = none)) := by
  constructor
  · refine ⟨by simp [bclose], by simp [bclose], rfl, rfl, rfl, ?_, ?_⟩
    · intro f hf
      obtain ⟨a, -, ha⟩ := List.mem_map.mp hf
      have hft : f = true := ha.symm
      subst hft
      exact ⟨rfl, by simp [bsendFinish, coutBool], by simp [bsendFinish]⟩
    · intro f hf
      have hft : f = true := (List.eq_of_mem_replicate hf)
      subst hft
      exact ⟨rfl, by simp [brecvFinish, coutBool], by simp [brecvFinish]⟩
  · refine ⟨by simp [uclose], by simp [uclose], rfl, rfl, ?_, ?_⟩
    · intro f hf
      obtain ⟨a, -, ha⟩ := List.mem_map.mp hf
      have hft : f = true := ha.symm
      subst hft
      exact ⟨rfl, by simp [usendFinish, coutBool]⟩
    · intro f hf
      have hft : f = true := (List.eq_of_mem_replicate hf)
      subst hft
      exact ⟨rfl, by simp [urecvFinish, coutBool], by simp [urecvFinish]⟩

/-- A full capacity-one buffered channel with two parked senders. -/
def bstCloseWit : BState Nat := ⟨false, 1, [1], [2, 3], 0⟩

/-- An open unbuffered channel with three parked receivers. -/
def ustCloseWit : UState Nat := ⟨false, [], 3⟩

/-- Witness for `close_unblocks_all` at concrete states: a buffered channel
with two parked senders and an unbuffered channel with three parked
receivers. -/
theorem close_unblocks_all_witness :
    (bclose bstCloseWit).2.1.length = 2 ∧
    coutBool (bsendFinish (bclose bstCloseWit).1 true).res = false ∧
    (uclose ustCloseWit).2.2.length = 3 :=
  ⟨(close_unblocks_all bstCloseWit ustCloseWit).1.1,
   ((close_unblocks_all bstCloseWit ustCloseWit).1.2.2.2.2.2.1 true
      (by decide)).2.1,
   (close_unblocks_all bstCloseWit ustCloseWit).2.2.1⟩

/-- Claim C7: every `try_send`/`try_recv` (the non-blocking entry sections,
`block = false`) on either channel kind yields exactly once after releasing
the channel lock when it returns `success` or `failure`, and returns
`failure` exactly when the channel is open but the operation would have had
to block (full buffer / empty buffer for the buffered channel, no parked
peer for the unbuffered channel). -/
theorem try_ops_yield_once {T : Type} (b : BState T) (u : UState T) (v w : T) :
    (((bsend b v false).res = COut.success ∨
        (bsend b v false).res = COut.failure) → (bsend b v false).yields = 1) ∧
    ((bsend b v false).res = COut.failure ↔
        (b.closedFlag = false ∧ b.buf.length = b.cap)) ∧
    (((brecv b false).res = COut.success ∨
        (brecv b false).res = COut.failure) → (brecv b false).yields = 1) ∧
    ((brecv b false).res = COut.failure ↔
        (b.closedFlag = false ∧ b.buf = [])) ∧
    (((usend u w false).res = COut.success ∨
        (usend u w false).res = COut.failure) → (usend u w false).yields = 1) ∧
    ((usend u w false).res = COut.failure ↔
        (u.closedFlag = false ∧ u.parkedRecv = 0)) ∧
    (((urecv u false).res = COut.success ∨
        (urecv u false).res = COut.failure) → (urecv u false).yields = 1) ∧
    ((urecv u false).res = COut.failure ↔
        (u.closedFlag = false ∧ u.parkedSend = [])) := by
  refine ⟨?_, ?_, ?_, ?_, ?_, ?_, ?_, ?_⟩
  · by_cases hc : b.closedFlag = true
    · simp [bsend, hc]
    · by_cases hf : (b.buf.length == b.cap) = true <;> simp [bsend, hc, hf]
  · by_cases hc : b.closedFlag = true
    · simp [bsend, hc]
    · by_cases hf : (b.buf.length == b.cap) = true <;>
        simp_all [bsend, Bool.not_eq_true]
  · by_cases hc : b.closedFlag = true
    · simp [brecv, hc]
    · by_cases he : b.buf.isEmpty = true <;> simp [brecv, hc, he]
  · by_cases hc : b.closedFlag = true
    · simp [brecv, hc]
    · by_cases he : b.buf.isEmpty = true <;>
        simp_all [brecv, Bool.not_eq_true, List.isEmpty_iff]
  · by_cases hc : u.closedFlag = true
    · simp [usend, hc]
    · by_cases hr : (u.parkedRecv == 0) = true <;> simp [usend, hc, hr]
  · by_cases hc : u.closedFlag = true
    · simp [usend, hc]
    · by_cases hr : (u.parkedRecv == 0) = true <;>
        simp_all [usend, Bool.not_eq_true]
  · by_cases hc : u.closedFlag = true
    · simp [urecv, hc]
    · cases hps : u.parkedSend <;> simp [urecv, hc, hps]
  · by_cases hc : u.closedFlag = true
    · simp [urecv, hc]
    · cases hps : u.parkedSend <;> simp_all [urecv, Bool.not_eq_true]

/-- A full capacity-one buffered channel with no parked operations. -/
def bstTryWit : BState Nat := ⟨false, 1, [1], [], 0⟩

/-- An open unbuffered channel with one parked sender. -/
def ustTryWit : UState Nat := ⟨false, [8], 0⟩

/-- Witness for `try_ops_yield_once` at concrete states: an open buffered
channel with a full buffer (try_send fails after one yield) and an open
unbuffered channel with a parked sender (try_recv succeeds after one
yield). -/
theorem try_ops_yield_once_witness :
    (bsend bstTryWit 2 false).yields = 1 ∧
    (urecv ustTryWit false).yields = 1 :=
  ⟨(try_ops_yield_once bstTryWit ustTryWit 2 0).1 (Or.inr (by decide)),
   (try_ops_yield_once bstTryWit ustTryWit 2 0).2.2.2.2.2.2.1
     (Or.inl (by decide))⟩

/-- Claim C9: on a closed buffered channel every `recv` critical section
returns `result::closed` immediately — the blocking wrapper therefore
returns `false` and `try_recv` returns `closed` — even when the ring
buffer still holds values; the state (including the buffer, whose values
are never delivered) is unchanged and no yield is performed, unlike the
success and failure paths. -/
theorem buffered_closed_recv {T : Type} (s : BState T) (block : Bool)
    (h : s.closedFlag = true) :
    brecv s block = ⟨s, COut.closed, 0⟩ ∧
    coutBool (brecv s block).res = false ∧
    (brecv s block).st.buf = s.buf := by
  simp [brecv, h, coutBool]

/-- A closed buffered channel whose buffer still holds an undelivered
value. -/
def bstClosedWit : BState Nat := ⟨true, 2, [42], [], 0⟩

/-- Witness for `buffered_closed_recv`: a closed channel whose buffer still
holds an undelivered value, under both the blocking and non-blocking
entry. -/
theorem buffered_closed_recv_witness :
    brecv bstClosedWit true = ⟨bstClosedWit, COut.closed, 0⟩ ∧
    coutBool (brecv bstClosedWit false).res = false :=
  ⟨(buffered_closed_recv bstClosedWit true rfl).1,
   (buffered_closed_recv bstClosedWit false rfl).2.1⟩

/-!
### Scheduler lifecycle (scheduler.hpp, `scheduler::run` / `scheduler::schedule`)

The scheduler state under its spinlock: the lifecycle state, the run-queue
of coroutines (abstracted to identifiers), the scheduled count and the
halt-completion flag.  `runFn` models a whole `run()` call; the execution
of individual coroutines inside the loop is abstracted away, and the
`StopEvent` parameter records which lifecycle call (`suspend()` or
`halt()`) eventually made `can_continue_()` false and ended the loop.  A
caller that enters while the state is `suspended` blocks in the
resume-wait loop until `resume()` sets the state back to `ready`, which
the model folds into the entry step.
-/

inductive LState where
  | ready
  | running
  | suspended
  | halted
deriving DecidableEq

structure SchedState where
  state : LState
  taskQueue : List Nat
  scheduled : Nat
  haltComplete : Bool
deriving DecidableEq

inductive StopEvent where
  | suspendEv
  | haltEv
deriving DecidableEq

/-- Source `scheduler::run()`.  Returns the `bool` result together with the state
left behind.  The body is only claimed when the state is `ready` (a second
concurrent caller sees `running` and skips it); on exit the source tests
`state_ == suspended` to decide between the `return true` path (which
resets the run flags, in particular `halt_complete_ = false`) and the
`return false` path (which clears the task queue, sets `halt_complete_`
and wakes halt waiters). -/
def runFn (s0 : SchedState) (stop : StopEvent) : Bool × SchedState :=
  let s := if s0.state = LState.suspended then { s0 with state := LState.ready }
           else s0
  let s1 :=
    if s.state = LState.ready then
      match stop with
      | StopEvent.suspendEv => { s with state := LState.suspended }
      | StopEvent.haltEv => { s with state := LState.halted }
    else s
  if s1.state = LState.suspended then
    (true, { s1 with haltComplete := false })
  else
    (false, { s1 with taskQueue := [], haltComplete := true })

/-- Source `scheduler::schedule(...)`: under the lock, nothing happens unless the
state differs from `halted`; otherwise each non-null coroutine argument
increments `scheduled_` and is pushed on the back of the task queue (a
null `std::unique_ptr` is skipped by `schedule_coroutine_`). -/
def schedule (s : SchedState) (cs : List (Option Nat)) : SchedState :=
  if s.state ≠ LState.halted then
    cs.foldl
      (fun st c =>
        match c with
        | some t =>
          { st with scheduled := st.scheduled + 1,
                    taskQueue := st.taskQueue ++ [t] }
        | none => st)
      s
  else s

/-- Claim C5: `run()` returns `true` exactly when it exited because
`suspend()` was called and `false` when it exited because `halt()` was
called (entry states `ready`, or `suspended` followed by a `resume()`);
a call made while another `run()` is driving the scheduler (state
`running`) returns `false` immediately, as does a call on a halted
scheduler. -/
theorem run_return_value (s : SchedState) (ev : StopEvent) :
    ((s.state = LState.ready ∨ s.state = LState.suspended) →
      ((runFn s ev).1 = true ↔ ev = StopEvent.suspendEv)) ∧
    (s.state = LState.running → (runFn s ev).1 = false) ∧
    (s.state = LState.halted → (runFn s ev).1 = false) := by
  refine ⟨?_, ?_, ?_⟩
  · intro h
    rcases h with h | h <;> cases ev <;> simp [runFn, h]
  · intro h
    cases ev <;> simp [runFn, h]
  · intro h
    cases ev <;> simp [runFn, h]

/-- A ready scheduler with two queued coroutines. -/
def schedReady : SchedState := ⟨LState.ready, [1, 2], 2, false⟩

/-- A scheduler being driven by a concurrent `run()` call. -/
def schedRunning : SchedState := ⟨LState.running, [1], 3, false⟩

/-- Witness for `run_return_value`: a ready scheduler stopped by
`suspend()` returns `true`; a second caller on a running scheduler returns
`false`. -/
theorem run_return_value_witness :
    (runFn schedReady StopEvent.suspendEv).1 = true ∧
    (runFn schedRunning StopEvent.suspendEv).1 = false :=
  ⟨((run_return_value schedReady StopEvent.suspendEv).1 (Or.inl rfl)).mpr rfl,
   (run_return_value schedRunning StopEvent.suspendEv).2.1 rfl⟩

/-- A halted scheduler with a non-trivial scheduled count. -/
def schedHalted : SchedState := ⟨LState.halted, [], 4, true⟩

/-- Claim C10: `schedule(...)` on a halted scheduler returns normally and
leaves the scheduler untouched — nothing is enqueued, the run-queue and
the scheduled count are unchanged, and the coroutine arguments are
discarded. -/
theorem schedule_halted_noop (s : SchedState) (cs : List (Option Nat))
    (h : s.state = LState.halted) :
    schedule s cs = s ∧
    (schedule s cs).taskQueue = s.taskQueue ∧
    (schedule s cs).scheduled = s.scheduled := by
  have hs : schedule s cs = s := by simp [schedule, h]
  exact ⟨hs, by rw [hs], by rw [hs]⟩

/-- Witness for `schedule_halted_noop`: scheduling two coroutines and a
null pointer on a halted scheduler changes nothing. -/
theorem schedule_halted_noop_witness :
    schedule schedHalted [some 7, none, some 8] = schedHalted :=
  (schedule_halted_noop schedHalted [some 7, none, some 8] rfl).1

/-!
### Threadpool worker selection and the `concurrent` dispatch
(threadpool.hpp `threadpool::worker()`, `detail::concurrent_algorithm`;
src/threadpool.cpp `detail::default_threadpool_scheduler`)

`worker_select` models `threadpool::worker()`: starting from the rotating
probe index it scans the measurement weights of the workers, keeps the
least one, returns early on an empty (zero-weight) worker, and wraps
around to the indices before the start when no empty worker was found.
`concurrent_algorithm` models `detail::concurrent_algorithm()`: the
current thread's scheduler when `in_scheduler()`, otherwise
`detail::default_threadpool_scheduler()` — which the source defines as a
function-local `static` reference bound once to
`default_threadpool().worker(0)`, i.e. the worker at fixed index 0.
-/

/-- The `compare` loop of `threadpool::worker()` over a list of candidate
indices, carrying the least weight seen and the return index; the third
component is the `found_empty` flag (set by the early break on a
zero-weight worker). -/
def workerScan (loads : List Nat) : List Nat → Nat → Nat → Nat × Nat × Bool
  | [], least, ret => (least, ret, false)
  | i :: rest, least, ret =>
    let w := loads.getD i 0
    if w = 0 then (least, i, true)
    else if w < least then workerScan loads rest w i
    else workerScan loads rest least ret

/-- Source `threadpool::worker()`: `loads` are the workers' measurement weights at
probe time and `startIdx` the rotating start index. -/
def worker_select (loads : List Nat) (startIdx : Nat) : Nat :=
  let least0 := loads.getD startIdx 0
  let r1 := workerScan loads
    (List.range' (startIdx + 1) (loads.length - (startIdx + 1))) least0 startIdx
  if r1.2.2 = false ∧ startIdx ≠ 0 then
    (workerScan loads (List.range' 0 startIdx) r1.1 r1.2.1).2.1
  else r1.2.1

/-- The scheduler a dispatch resolves to: the calling thread's scheduler or
a worker of the default threadpool, by index. -/
inductive SchedRef where
  | current
  | tpWorker (idx : Nat)
deriving DecidableEq

/-- The environment `detail::concurrent_algorithm()` consults: whether the
calling thread runs inside a scheduler, plus the default threadpool's
worker measurement weights and rotating probe index at call time. -/
structure ConcEnv where
  inSched : Bool
  tpLoads : List Nat
  tpRotIdx : Nat

/-- Source `detail::default_threadpool_scheduler()`: the `static` reference bound
to `default_threadpool().worker(0)`. -/
def default_threadpool_scheduler : SchedRef := SchedRef.tpWorker 0

/-- Source `detail::concurrent_algorithm()`, the scheduler `concurrent(...)`
schedules its arguments on. -/
def concurrent_algorithm (env : ConcEnv) : SchedRef :=
  if env.inSched then SchedRef.current else default_threadpool_scheduler

/-- An environment outside any scheduler whose default threadpool has a
busy worker 0 (weight 5) and a less-loaded worker 1 (weight 3). -/
def concCexEnv : ConcEnv := ⟨false, [5, 3], 0⟩

/-- Counterexample to claim C1: in `concCexEnv` the calling thread is not
in a scheduler and `threadpool::worker()` would select worker 1 (the
least-loaded), but `concurrent(...)` schedules on the fixed fallback
`default_threadpool().worker(0)`. -/
theorem concurrent_fallback_cex :
    concCexEnv.inSched = false ∧
    worker_select concCexEnv.tpLoads concCexEnv.tpRotIdx = 1 ∧
    concurrent_algorithm concCexEnv = SchedRef.tpWorker 0 ∧
    concurrent_algorithm concCexEnv ≠
      SchedRef.tpWorker (worker_select concCexEnv.tpLoads concCexEnv.tpRotIdx)
    := by decide

/-- Claim C1 (amended): `concurrent(...)` schedules on the current thread's
scheduler when the caller runs inside one, and otherwise on the fixed
fallback scheduler `default_threadpool().worker(0)` (an arbitrary worker
chosen once, not the least-loaded worker at call time). -/
theorem concurrent_algorithm_amended (env : ConcEnv) :
    (env.inSched = true → concurrent_algorithm env = SchedRef.current) ∧
    (env.inSched = false →
      concurrent_algorithm env = SchedRef.tpWorker 0) := by
  refine ⟨fun h => ?_, fun h => ?_⟩ <;>
    simp [concurrent_algorithm, default_threadpool_scheduler, h]

/-- An environment inside a scheduler. -/
def concInSchedEnv : ConcEnv := ⟨true, [5, 3], 0⟩

/-- Witness for `concurrent_algorithm_amended` on both sides of the
branch. -/
theorem concurrent_algorithm_amended_witness :
    concurrent_algorithm concInSchedEnv = SchedRef.current ∧
    concurrent_algorithm concCexEnv = SchedRef.tpWorker 0 :=
  ⟨(concurrent_algorithm_amended concInSchedEnv).1 rfl,
   (concurrent_algorithm_amended concCexEnv).2 rfl⟩

/-!
### The await bridge (await.hpp, `detail::await_threadpool::schedule`,
`detail::await_`, `mce::await`)

`detail::await_threadpool::schedule` hands the callable to a dedicated
await worker only when `in_scheduler() && !tl_is_await()`; otherwise it
invokes the callable directly on the calling thread.  In both branches the
caller observes the callable's completed effect before `schedule` returns
(in the worker branch the caller parks until the bridging coroutine
unparks it after running the callable).  `await_` wraps the callable so
that its result is assigned to a stack slot of the caller, returned by
`await`; the `void` overload returns the literal `0`.
-/

/-- The environment the dispatch condition consults: `in_scheduler()` and
the worker-thread flag `detail::await_worker::tl_is_await()`. -/
structure AwaitEnv where
  inSched : Bool
  isAwait : Bool

inductive ExecWhere where
  | callingThread
  | awaitWorker
deriving DecidableEq

/-- Source `detail::await_threadpool::schedule(cb, args...)`: runs the callable
(modelled by its effect on a memory cell) and reports where it ran. -/
def await_threadpool_schedule {σ : Type} (env : AwaitEnv) (task : σ → σ)
    (mem : σ) : σ × ExecWhere :=
  if env.inSched && !env.isAwait then (task mem, ExecWhere.awaitWorker)
  else (task mem, ExecWhere.callingThread)

/-- The non-void `detail::await_` overload: `R r; schedule([&]{ r = cb(args...); });
return r;` — the result slot starts unassigned and is filled by the
scheduled callable. -/
def await_nonvoid {α β : Type} (env : AwaitEnv) (cb : α → β) (a : α) :
    Option β × ExecWhere :=
  await_threadpool_schedule env (fun _ => some (cb a)) (none : Option β)

/-- The void `detail::await_` overload: `schedule([&]{ cb(args...); });
return 0;`. -/
def await_void {α : Type} (env : AwaitEnv) (cb : α → Unit) (a : α) :
    Int × ExecWhere :=
  ((0 : Int), (await_threadpool_schedule env (fun _ => cb a) ()).2)

/-- Claim C8: `await(f, a...)` returns `f(a...)` (the result slot holds
exactly the callable's value; the void overload returns 0), and when the
caller is not inside a scheduler or is already executing inside an outer
`await` (the `tl_is_await()` flag), the callable runs synchronously on the
calling thread instead of an await worker. -/
theorem await_contract {α β : Type} (env : AwaitEnv) (cb : α → β)
    (cbv : α → Unit) (a : α) :
    (await_nonvoid env cb a).1 = some (cb a) ∧
    (await_void env cbv a).1 = 0 ∧
    ((env.inSched = false ∨ env.isAwait = true) →
      (await_nonvoid env cb a).2 = ExecWhere.callingThread ∧
      (await_void env cbv a).2 = ExecWhere.callingThread) := by
  refine ⟨?_, rfl, ?_⟩
  · unfold await_nonvoid await_threadpool_schedule
    split <;> rfl
  · intro h
    have hcond : (env.inSched && !env.isAwait) = false := by
      rcases h with h | h <;> simp [h]
    constructor <;>
      simp [await_nonvoid, await_void, await_threadpool_schedule, hcond]

/-- Witness for `await_contract`: a caller outside any scheduler runs the
callable synchronously and still receives its value. -/
theorem await_contract_witness :
    (await_nonvoid ⟨false, false⟩ (fun n : Nat => n + 1) 4).1 = some 5 ∧
    (await_nonvoid ⟨false, false⟩ (fun n : Nat => n + 1) 4).2
      = ExecWhere.callingThread :=
  ⟨(await_contract ⟨false, false⟩ (fun n : Nat => n + 1) (fun _ => ()) 4).1,
   ((await_contract ⟨false, false⟩ (fun n : Nat => n + 1) (fun _ => ()) 4).2.2
      (Or.inl rfl)).1⟩

end Mce
